import Mathlib

/-!
Verification of the rustyleaf streaming GeoJSON ingestion pipeline
(`src/index.js`, class `GeoJSONLayer`): the boundary scanner
`findCompleteJsonEnd`, the buffer dispatcher `processStreamingBuffer`, the
streaming read loop of `loadUrlStreaming`, the per-record dispatcher
`processChunk`, the deferred-attachment logic of `loadData`/`addTo`, and the
dual-path loader `loadFromUrl`.

Documents are modelled as `List Char`; JS numbers that only ever hold small
non-negative integers are `Nat`; the brace counter of the scanner is `Int`
(it can go negative on unbalanced input).
-/

namespace Rustyleaf

/-- Worker of `findCompleteJsonEnd` (src/index.js lines 1225-1261): walks the
character list carrying the JS locals `braceCount`, `inString`, `escape` and
the loop index `i`; returns the index of the `\x7d` closing the first complete
top-level object, or `none` where the JS returns `-1`. -/
def fcjeAux : List Char → Int → Bool → Bool → Nat → Option Nat
  | [], _, _, _, _ => none
  | c :: rest, braceCount, inString, escape, i =>
    if escape then
      fcjeAux rest braceCount inString false (i + 1)
    else if c = '\\' then
      fcjeAux rest braceCount inString true (i + 1)
    else if c = '"' then
      fcjeAux rest braceCount (!inString) escape (i + 1)
    else if inString then
      fcjeAux rest braceCount inString escape (i + 1)
    else if c = '\x7b' then
      fcjeAux rest (braceCount + 1) inString escape (i + 1)
    else if c = '\x7d' then
      if braceCount - 1 = 0 then some i
      else fcjeAux rest (braceCount - 1) inString escape (i + 1)
    else
      fcjeAux rest braceCount inString escape (i + 1)

/-- GeoJSONLayer.findCompleteJsonEnd: scan from the start with
`braceCount = 0`, `inString = false`, `escape = false`. -/
def findCompleteJsonEnd (str : List Char) : Option Nat :=
  fcjeAux str 0 false false 0

/-- Modelled from the spec (section 4.1 Boundary Scanner): the same single
forward pass described in the spec's own words — if `escapeNext`, clear it and
continue; a backslash sets `escapeNext`; a quote toggles `inString`; while
`inString` structural characters are ignored; otherwise `\x7b` increments and
`\x7d` decrements `depth`, returning the current index when `depth` returns to
zero. Used only to compare the spec's algorithm with the code's. -/
def specScanAux : List Char → Int → Bool → Bool → Nat → Option Nat
  | [], _, _, _, _ => none
  | c :: rest, depth, inString, escapeNext, i =>
    if escapeNext then
      specScanAux rest depth inString false (i + 1)
    else if c = '\\' then
      specScanAux rest depth inString true (i + 1)
    else
      let q := if c = '"' then !inString else inString
      if q then
        specScanAux rest depth q escapeNext (i + 1)
      else if c = '\x7b' then
        specScanAux rest (depth + 1) q escapeNext (i + 1)
      else if c = '\x7d' then
        if depth - 1 = 0 then some i
        else specScanAux rest (depth - 1) q escapeNext (i + 1)
      else
        specScanAux rest depth q escapeNext (i + 1)

/-- Modelled from the spec: entry point of the spec's scanner. -/
def specScan (str : List Char) : Option Nat :=
  specScanAux str 0 false false 0

theorem fcjeAux_eq_specScanAux (s : List Char) :
    ∀ d q e i, fcjeAux s d q e i = specScanAux s d q e i := by
  induction s with
  | nil => intro d q e i; rfl
  | cons c rest ih =>
    intro d q e i
    by_cases he : e
    · simp [fcjeAux, specScanAux, he, ih]
    · by_cases hb : c = '\\'
      · simp [fcjeAux, specScanAux, he, hb, ih]
      · by_cases hq : c = '"'
        · subst hq
          cases q <;> simp [fcjeAux, specScanAux, he, hb, ih]
        · cases q with
          | true => simp [fcjeAux, specScanAux, he, hb, hq, ih]
          | false =>
            by_cases hob : c = '\x7b'
            · simp [fcjeAux, specScanAux, he, hb, hq, hob, ih]
            · by_cases hcb : c = '\x7d'
              · simp [fcjeAux, specScanAux, he, hb, hq, hob, hcb, ih]
              · simp [fcjeAux, specScanAux, he, hb, hq, hob, hcb, ih]

/-- Example document `\x7b"a":1\x7d`. -/
def exObjA : List Char := ['\x7b', '"', 'a', '"', ':', '1', '\x7d']

/-- Example document `\x7b"b":2\x7d`. -/
def exObjB : List Char := ['\x7b', '"', 'b', '"', ':', '2', '\x7d']

/-- Example document `\x7b"a":"b\x7bc\x7d"\x7d` (braces inside a string). -/
def exObjNested : List Char :=
  ['\x7b', '"', 'a', '"', ':', '"', 'b', '\x7b', 'c', '\x7d', '"', '\x7d']

/-- Example truncated document `\x7b"a":`. -/
def exObjOpen : List Char := ['\x7b', '"', 'a', '"', ':']

/-- C5: the Boundary Scanner returns index 6 on the 7-character object, index
11 on the object whose string holds braces, not-found on the truncated
object, and in general the code's scanner coincides with the single forward
pass over depth/inString/escapeNext described by the spec. -/
theorem C5_boundary_scanner :
    findCompleteJsonEnd exObjA = some 6 ∧
    findCompleteJsonEnd exObjNested = some 11 ∧
    findCompleteJsonEnd exObjOpen = none ∧
    ∀ s : List Char, findCompleteJsonEnd s = specScan s := by
  refine ⟨by decide, by decide, by decide, ?_⟩
  intro s
  exact fcjeAux_eq_specScanAux s 0 false false 0

/-- Evolution of the scanner's `(inString, escape)` pair on one character,
read off the branches of `findCompleteJsonEnd`: an armed escape is consumed,
a backslash arms it, a quote toggles `inString`, everything else leaves
`inString` alone and disarms the escape. -/
def flagStep : Bool × Bool → Char → Bool × Bool
  | (q, e), c =>
    if e then (q, false)
    else if c = '\\' then (q, true)
    else if c = '"' then (!q, false)
    else (q, false)

theorem flagStep_cons {rest : List Char} {c : Char} {q e q1 e1 : Bool}
    {i j : Nat}
    (hf : flagStep (q, e) c = (q1, e1))
    (h1 : i + 1 ≤ j)
    (h2 : List.foldl flagStep (q1, e1) (rest.take (j - (i + 1))) =
      (false, false))
    (h3 : (rest.drop (j - (i + 1))).head? = some '\x7d') :
    i ≤ j ∧
      List.foldl flagStep (q, e) ((c :: rest).take (j - i)) = (false, false) ∧
      ((c :: rest).drop (j - i)).head? = some '\x7d' := by
  have hk : j - i = (j - (i + 1)) + 1 := by omega
  refine ⟨by omega, ?_, ?_⟩
  · rw [hk, List.take_succ_cons, List.foldl_cons, hf]; exact h2
  · rw [hk, List.drop_succ_cons]; exact h3

theorem fcjeAux_flags (s : List Char) :
    ∀ d q e i j, fcjeAux s d q e i = some j →
      i ≤ j ∧
        List.foldl flagStep (q, e) (s.take (j - i)) = (false, false) ∧
        (s.drop (j - i)).head? = some '\x7d' := by
  induction s with
  | nil => intro d q e i j h; simp [fcjeAux] at h
  | cons c rest ih =>
    intro d q e i j h
    simp only [fcjeAux] at h
    split_ifs at h with he hb hq hin hob hcb hz
    · obtain ⟨h1, h2, h3⟩ := ih _ _ _ _ _ h
      exact flagStep_cons (by simp [flagStep, *]) h1 h2 h3
    · obtain ⟨h1, h2, h3⟩ := ih _ _ _ _ _ h
      exact flagStep_cons (by simp [flagStep, *]) h1 h2 h3
    · obtain ⟨h1, h2, h3⟩ := ih _ _ _ _ _ h
      exact flagStep_cons (by simp [flagStep, *]) h1 h2 h3
    · obtain ⟨h1, h2, h3⟩ := ih _ _ _ _ _ h
      exact flagStep_cons (by simp [flagStep, *]) h1 h2 h3
    · obtain ⟨h1, h2, h3⟩ := ih _ _ _ _ _ h
      exact flagStep_cons (by simp [flagStep, *]) h1 h2 h3
    · injection h with hij
      subst hij
      refine ⟨Nat.le_refl i, ?_, ?_⟩
      · simp only [Nat.sub_self, List.take_zero, List.foldl_nil]
        simp [*]
      · simp only [Nat.sub_self, List.drop_zero, List.head?_cons]
        simp [*]
    · obtain ⟨h1, h2, h3⟩ := ih _ _ _ _ _ h
      exact flagStep_cons (by simp [flagStep, *]) h1 h2 h3
    · obtain ⟨h1, h2, h3⟩ := ih _ _ _ _ _ h
      exact flagStep_cons (by simp [flagStep, *]) h1 h2 h3

/-- C6: whenever the Boundary Scanner returns an index `j` instead of
not-found, the scan state on arrival at `j` — the `(inString, escape)` pair
obtained by folding the scanner's flag transition over the first `j`
characters — has `inString = false` (the index is not inside an open quoted
string) and `escape = false` (it does not immediately follow an unresolved
escape character). -/
theorem C6_scanner_flag_invariant (s : List Char) (j : Nat)
    (h : findCompleteJsonEnd s = some j) :
    (List.foldl flagStep (false, false) (s.take j)).1 = false ∧
      (List.foldl flagStep (false, false) (s.take j)).2 = false := by
  obtain ⟨-, h2, -⟩ := fcjeAux_flags s 0 false false 0 j h
  rw [Nat.sub_zero] at h2
  rw [h2]
  exact ⟨rfl, rfl⟩

/-- Witness for C6 at the concrete document `\x7b"a":1\x7d`, whose scanner
result is index 6. -/
theorem C6_scanner_flag_invariant_witness :
    (List.foldl flagStep (false, false) (exObjA.take 6)).1 = false ∧
      (List.foldl flagStep (false, false) (exObjA.take 6)).2 = false :=
  C6_scanner_flag_invariant exObjA 6 (by decide)

theorem findCompleteJsonEnd_lt_length {s : List Char} {j : Nat}
    (h : findCompleteJsonEnd s = some j) : j < s.length := by
  obtain ⟨-, -, h3⟩ := fcjeAux_flags s 0 false false 0 j h
  rw [Nat.sub_zero] at h3
  by_contra hge
  push_neg at hge
  rw [List.drop_eq_nil_of_le hge] at h3
  simp at h3

/-- Worker of `processStreamingBuffer` (src/index.js lines 1205-1222): the JS
while-loop that repeatedly asks `findCompleteJsonEnd` for a boundary, slices
`[0, endIndex]` off as a record (dispatched via `processChunk` with
`isFinal = false`) and keeps the suffix. Written with explicit fuel; since
every discovered boundary consumes at least one character, fuel equal to the
buffer length is enough (`psbAux_irrel`). Returns the JS result object
`(processed records, remaining buffer)`; the record list stands for both the
`processed` counter (its length) and the sequence of `processChunk` calls. -/
def psbAux : Nat → List Char → List (List Char) × List Char
  | 0, buffer => ([], buffer)
  | fuel + 1, buffer =>
    match findCompleteJsonEnd buffer with
    | none => ([], buffer)
    | some endIndex =>
      let jsonStr := buffer.take (endIndex + 1)
      let rest := psbAux fuel (buffer.drop (endIndex + 1))
      (jsonStr :: rest.1, rest.2)

/-- GeoJSONLayer.processStreamingBuffer. The `isFinal` parameter of the JS
method is unused by its body and omitted. -/
def processStreamingBuffer (buffer : List Char) :
    List (List Char) × List Char :=
  psbAux buffer.length buffer

theorem psbAux_none {fuel : Nat} {b : List Char}
    (h : findCompleteJsonEnd b = none) : psbAux fuel b = ([], b) := by
  cases fuel with
  | zero => rfl
  | succ n => simp [psbAux, h]

theorem psbAux_irrel (fuel : Nat) :
    ∀ b : List Char, b.length ≤ fuel →
      psbAux fuel b = processStreamingBuffer b := by
  induction fuel using Nat.strong_induction_on with
  | _ fuel ih =>
    intro b hb
    cases fuel with
    | zero =>
      have : b = [] := List.length_eq_zero.mp (Nat.le_zero.mp hb)
      subst this
      rfl
    | succ n =>
      cases h : findCompleteJsonEnd b with
      | none => rw [psbAux_none h, processStreamingBuffer, psbAux_none h]
      | some j =>
        have hj : j < b.length := findCompleteJsonEnd_lt_length h
        have hlen : (b.drop (j + 1)).length = b.length - (j + 1) :=
          List.length_drop _ _
        obtain ⟨m, hm⟩ : ∃ m, b.length = m + 1 :=
          ⟨b.length - 1, by omega⟩
        rw [processStreamingBuffer, hm]
        simp only [psbAux, h]
        rw [ih n (by omega) _ (by omega), ih m (by omega) _ (by omega)]

/-- JS `str.slice(-n)` for a non-negative count `n`: the last `n` characters,
except that `slice(-0)` is `slice(0)`, the whole string. -/
def jsSliceNeg (n : Nat) (s : List Char) : List Char :=
  if n = 0 then s else s.drop (s.length - n)

/-- Characters removed by JS `String.prototype.trim` (WhiteSpace and
LineTerminator code points). -/
def isJsWhitespace (c : Char) : Bool :=
  c.toNat = 0x9 || c.toNat = 0xA || c.toNat = 0xB || c.toNat = 0xC ||
  c.toNat = 0xD || c.toNat = 0x20 || c.toNat = 0xA0 || c.toNat = 0x1680 ||
  (0x2000 ≤ c.toNat && c.toNat ≤ 0x200A) || c.toNat = 0x2028 ||
  c.toNat = 0x2029 || c.toNat = 0x202F || c.toNat = 0x205F ||
  c.toNat = 0x3000 || c.toNat = 0xFEFF

/-- JS `str.trim()`: strip leading and trailing whitespace. -/
def jsTrim (s : List Char) : List Char :=
  ((s.dropWhile isJsWhitespace).reverse.dropWhile isJsWhitespace).reverse

/-- State of the `loadUrlStreaming` read loop (src/index.js lines 1138-1191):
the local `buffer`, the sequence of `(text, isFinal)` pairs handed to
`processChunk`, and the number of `completeCallback`/`resolve` firings. -/
structure LoopState where
  buffer : List Char
  dispatched : List (List Char × Bool)
  completions : Nat
  deriving DecidableEq

/-- Loop state before the first chunk arrives. -/
def initLoop : LoopState := ⟨[], [], 0⟩

/-- One non-final turn of `readChunk`: append the decoded chunk to `buffer`,
call `processStreamingBuffer(buffer, false)` — whose return value the JS
discards, so `buffer` itself is not shortened by the dispatch pass — and then
apply the backpressure trim `buffer = buffer.slice(-chunkSize)` when
`buffer.length > chunkSize * 2`. -/
def absorbStep (chunkSize : Nat) (st : LoopState) (chunk : List Char) :
    LoopState :=
  let buffer := st.buffer ++ chunk
  let pass := (processStreamingBuffer buffer).1
  let buffer2 :=
    if chunkSize * 2 < buffer.length then jsSliceNeg chunkSize buffer
    else buffer
  { buffer := buffer2,
    dispatched := st.dispatched ++ pass.map (fun r => (r, false)),
    completions := st.completions }

/-- Terminal turn of `readChunk` (`done = true`): dispatch the residual
buffer once with `isFinal = true` when `buffer.trim()` is truthy, then fire
`completeCallback` and `resolve`. -/
def doneStep (st : LoopState) : LoopState :=
  let st1 :=
    if (jsTrim st.buffer).isEmpty then st
    else { st with dispatched := st.dispatched ++ [(st.buffer, true)] }
  { st1 with completions := st1.completions + 1 }

/-- Whole streaming read loop over a list of arriving chunks followed by
stream end. -/
def runLoop (chunkSize : Nat) (chunks : List (List Char)) : LoopState :=
  doneStep (chunks.foldl (absorbStep chunkSize) initLoop)

/-- C1 fails on the code: `readChunk` discards the pair returned by
`processStreamingBuffer`, so the read-loop buffer keeps every dispatched
record. Feeding the document `\x7b"a":1\x7d\x7b"b":2\x7d` as the two
fragments `\x7b"a":1\x7d` and `\x7b"b":2\x7d` (default 1 MiB chunk size)
dispatches the first record twice and finally re-dispatches the entire
document as the final record, instead of dispatching each record exactly
once; and absorbing the document as a single fragment does dispatch 2 records
but leaves the accumulation buffer holding the full text, not empty. -/
theorem C1_split_invariance_fails :
    (runLoop 1048576 [exObjA, exObjB]).dispatched =
      [(exObjA, false), (exObjA, false), (exObjB, false),
        (exObjA ++ exObjB, true)] ∧
    (absorbStep 1048576 initLoop (exObjA ++ exObjB)).dispatched =
      [(exObjA, false), (exObjB, false)] ∧
    (absorbStep 1048576 initLoop (exObjA ++ exObjB)).buffer =
      exObjA ++ exObjB ∧
    (absorbStep 1048576 initLoop (exObjA ++ exObjB)).buffer ≠ [] := by
  refine ⟨by decide, by decide, by decide, by decide⟩

/-- C9: after each absorb pass, if the buffer exceeds twice the configured
chunk size it is trimmed to exactly its last `chunkSize` characters, and in
every case the buffer at the end of the read-loop iteration is at most
`chunkSize * 2` long (for a positive configured chunk size). -/
theorem C9_backpressure_trim (chunkSize : Nat) (st : LoopState)
    (chunk : List Char) (hcs : 0 < chunkSize) :
    (absorbStep chunkSize st chunk).buffer.length ≤ chunkSize * 2 ∧
    (chunkSize * 2 < (st.buffer ++ chunk).length →
      (absorbStep chunkSize st chunk).buffer =
        (st.buffer ++ chunk).drop ((st.buffer ++ chunk).length - chunkSize) ∧
      (absorbStep chunkSize st chunk).buffer.length = chunkSize) := by
  have hne : chunkSize ≠ 0 := Nat.pos_iff_ne_zero.mp hcs
  have hbuf : (absorbStep chunkSize st chunk).buffer =
      if chunkSize * 2 < (st.buffer ++ chunk).length
      then jsSliceNeg chunkSize (st.buffer ++ chunk)
      else st.buffer ++ chunk := rfl
  rw [hbuf]
  by_cases hlen : chunkSize * 2 < (st.buffer ++ chunk).length
  · rw [if_pos hlen]
    unfold jsSliceNeg
    rw [if_neg hne]
    refine ⟨?_, fun _ => ⟨rfl, ?_⟩⟩ <;> rw [List.length_drop] <;> omega
  · rw [if_neg hlen]
    exact ⟨by omega, fun h => absurd h hlen⟩

/-- Witness for C9 with `chunkSize = 1` and a three-character fragment, which
triggers the trim. -/
theorem C9_backpressure_trim_witness :
    (absorbStep 1 initLoop ['x', 'y', 'z']).buffer.length ≤ 1 * 2 ∧
    (absorbStep 1 initLoop ['x', 'y', 'z']).buffer =
      (initLoop.buffer ++ ['x', 'y', 'z']).drop
        ((initLoop.buffer ++ ['x', 'y', 'z']).length - 1) ∧
    (absorbStep 1 initLoop ['x', 'y', 'z']).buffer.length = 1 :=
  ⟨(C9_backpressure_trim 1 initLoop ['x', 'y', 'z'] (by decide)).1,
    (C9_backpressure_trim 1 initLoop ['x', 'y', 'z'] (by decide)).2
      (by decide)⟩

theorem jsTrim_isEmpty_eq (s : List Char) :
    (jsTrim s).isEmpty = s.all isJsWhitespace := by
  rw [Bool.eq_iff_iff]
  simp only [jsTrim, List.isEmpty_iff, List.reverse_eq_nil_iff,
    List.dropWhile_eq_nil_iff, List.mem_reverse, List.all_eq_true]
  constructor
  · intro h c hc
    rw [← List.takeWhile_append_dropWhile (p := isJsWhitespace)
      (l := s)] at hc
    rcases List.mem_append.mp hc with hc1 | hc2
    · exact List.mem_takeWhile_imp hc1
    · exact h c hc2
  · intro h c hc
    exact h c ((List.dropWhile_sublist (l := s) isJsWhitespace).subset hc)

/-- C10: at stream end, the residual buffer is dispatched once as a final
record exactly when JS `trim()` leaves it non-empty — that is, when it holds
at least one non-whitespace character; a whitespace-only or empty residue is
dropped without a dispatch; and in either case the completion callback fires
exactly once. -/
theorem C10_final_flush (st : LoopState) :
    (doneStep st).completions = st.completions + 1 ∧
    (doneStep st).dispatched =
      st.dispatched ++
        (if st.buffer.all isJsWhitespace then [] else [(st.buffer, true)]) := by
  unfold doneStep
  rw [← jsTrim_isEmpty_eq]
  by_cases h : (jsTrim st.buffer).isEmpty <;> simp [h]

/-- Observable state of a `GeoJSONLayer` for the deferred-attachment logic
(src/index.js lines 1019-1094 and 1310-1344): the `dataLoaded` guard, the
normalized `geojson` object, the pending slot `_pendingGeoJSONText`, the
`_pendingTimer` interval, whether the consumer handle (`map` plus
`layerIndex`) exists, the payloads forwarded to the engine via
`wasmMap.load_geojson`, and the `updateStyle` invocations. -/
structure LayerState where
  dataLoaded : Bool
  geojson : Option (List Char)
  pending : Option (List Char)
  timerArmed : Bool
  onMap : Bool
  engineLoads : List (List Char)
  styleUpdates : Nat
  deriving DecidableEq

/-- Freshly constructed layer: `new GeoJSONLayer()`. -/
def initLayer : LayerState :=
  { dataLoaded := false, geojson := none, pending := none,
    timerArmed := false, onMap := false, engineLoads := [],
    styleUpdates := 0 }

/-- GeoJSONLayer.loadData on a string payload `jsonText` (the text form that
the URL and streaming paths hand it): an early return when `dataLoaded` is
already set; otherwise normalize — `parseOk` abstracts the verdict of
`JSON.parse(jsonText)`, on success the parsed object is retained in
`geojson` (represented here by the text it was parsed from), on failure
`geojson` is null and only a warning is logged — mark the layer loaded, and
then, only under the JS truthiness guard `if (jsonText)` (an empty string is
falsy, so it is neither forwarded nor parked), either forward the text to
the engine at once (handle present) or park it in the pending slot and arm
the retry interval. -/
def loadData (st : LayerState) (jsonText : List Char) (parseOk : Bool) :
    LayerState :=
  if st.dataLoaded then st
  else
    let st1 := { st with
        geojson := if parseOk then some jsonText else none,
        dataLoaded := true }
    if jsonText = [] then st1
    else if st1.onMap then
      { st1 with
          engineLoads := st1.engineLoads ++ [jsonText],
          styleUpdates := st1.styleUpdates + 1, pending := none }
    else
      { st1 with pending := some jsonText, timerArmed := true }

/-- One firing of the `_pendingTimer` interval armed by `loadData`: when the
handle exists and a payload is pending, forward it, update style, clear the
pending slot and cancel the interval. -/
def pendingTimerTick (st : LayerState) : LayerState :=
  if st.onMap then
    match st.pending with
    | some t =>
      { st with
          engineLoads := st.engineLoads ++ [t],
          styleUpdates := st.styleUpdates + 1,
          pending := none, timerArmed := false }
    | none => st
  else st

/-- GeoJSONLayer.addTo: attach the consumer handle, then flush the pending
payload (clearing slot and timer), or else load the stored `geojson`, or else
do nothing. -/
def addTo (st : LayerState) : LayerState :=
  let st1 := { st with onMap := true }
  match st1.pending with
  | some t =>
    { st1 with
        engineLoads := st1.engineLoads ++ [t],
        styleUpdates := st1.styleUpdates + 1,
        pending := none, timerArmed := false }
  | none =>
    match st1.geojson with
    | some g =>
      { st1 with
          engineLoads := st1.engineLoads ++ [g],
          styleUpdates := st1.styleUpdates + 1 }
    | none => st1

/-- C2 fails on the code: submitting payload `1` and then payload `2` before
the handle exists forwards only `1` once the layer is added — the second
`loadData` is discarded by the `dataLoaded` guard rather than overwriting the
pending slot. -/
theorem C2_overwrite_counterexample :
    (addTo (loadData (loadData initLayer ['1'] true) ['2']
      true)).engineLoads = [['1']] ∧
    (addTo (loadData (loadData initLayer ['1'] true) ['2']
      true)).engineLoads ≠ [['2']] := by decide

/-- C2 amended: for every pair of payloads whose text forms are non-empty
strings (the first one at least — an empty string is falsy and is neither
parked nor forwarded at all), `submit(payloadA)` then `submit(payloadB)`
before a consumer handle exists makes the second call a no-op (the
`dataLoaded` guard set by the first call short-circuits it); only `payloadA`
is forwarded to the engine once the handle becomes available, and the
pending slot and retry timer are cleared on that first successful flush.
Holds whatever `JSON.parse` makes of either payload. -/
theorem C2_deferred_attachment_first_wins (pA pB : List Char)
    (okA okB : Bool) (hA : pA ≠ []) :
    loadData (loadData initLayer pA okA) pB okB = loadData initLayer pA okA ∧
    (addTo (loadData (loadData initLayer pA okA) pB okB)).engineLoads =
      [pA] ∧
    (addTo (loadData (loadData initLayer pA okA) pB okB)).pending = none ∧
    (addTo (loadData (loadData initLayer pA okA) pB okB)).timerArmed =
      false := by
  have h1 : loadData initLayer pA okA =
      { dataLoaded := true,
        geojson := if okA then some pA else none,
        pending := some pA, timerArmed := true, onMap := false,
        engineLoads := [], styleUpdates := 0 } := by
    simp [loadData, initLayer, hA]
  have h2 : loadData (loadData initLayer pA okA) pB okB =
      loadData initLayer pA okA := by
    rw [h1]; rfl
  refine ⟨h2, ?_, ?_, ?_⟩ <;> rw [h2, h1] <;> rfl

/-- Witness for C2 amended at the payloads `1` and `2`, both accepted by
`JSON.parse`. -/
theorem C2_deferred_attachment_first_wins_witness :
    loadData (loadData initLayer ['1'] true) ['2'] true =
      loadData initLayer ['1'] true ∧
    (addTo (loadData (loadData initLayer ['1'] true) ['2']
      true)).engineLoads = [['1']] ∧
    (addTo (loadData (loadData initLayer ['1'] true) ['2']
      true)).pending = none ∧
    (addTo (loadData (loadData initLayer ['1'] true) ['2']
      true)).timerArmed = false :=
  C2_deferred_attachment_first_wins ['1'] ['2'] true true (by decide)

/-- Consumer-facing state of `processChunk` (src/index.js lines 1264-1272):
whether the handle exists, the records the engine accepted, the
`console.warn` count, and the `onError`/`errorCallback` invocation count
(which `processChunk` never touches). The engine's verdict on a record is
abstracted as the predicate `engineRejects`: `load_geojson_chunk` either
ingests the record or throws. -/
structure ChunkState where
  attached : Bool
  ingested : List (List Char × Bool)
  warns : Nat
  onErrorCalls : Nat
  deriving DecidableEq

/-- GeoJSONLayer.processChunk: guarded by the handle; a throw from
`load_geojson_chunk` is caught and logged with `console.warn`. -/
def processChunk (engineRejects : List Char → Bool) (st : ChunkState)
    (chunk : List Char) (isFinal : Bool) : ChunkState :=
  if st.attached then
    if engineRejects chunk then { st with warns := st.warns + 1 }
    else { st with ingested := st.ingested ++ [(chunk, isFinal)] }
  else st

/-- C7 fails on the code in its reporting clause: with an engine that rejects
the record `['x']`, the rejection produces a `console.warn` and zero
`onError` invocations — the error is not reported via the `onError`
callback. -/
theorem C7_onerror_counterexample :
    (processChunk (fun c => decide (c = ['x'])) ⟨true, [], 0, 0⟩ ['x']
      false).onErrorCalls = 0 ∧
    (processChunk (fun c => decide (c = ['x'])) ⟨true, [], 0, 0⟩ ['x']
      false).warns = 1 := by decide

/-- C7 amended: a record the engine rejects is caught at that record and
logged as a console warning — not reported via the `onError` callback — and
does not abort the stream: the rejected record is simply not ingested and a
subsequent acceptable record is still dispatched to the engine. -/
theorem C7_rejection_local (engineRejects : List Char → Bool)
    (st : ChunkState) (c1 c2 : List Char) (f1 f2 : Bool)
    (hatt : st.attached = true) (hrej : engineRejects c1 = true)
    (hacc : engineRejects c2 = false) :
    (processChunk engineRejects st c1 f1).onErrorCalls = st.onErrorCalls ∧
    (processChunk engineRejects st c1 f1).warns = st.warns + 1 ∧
    (processChunk engineRejects st c1 f1).ingested = st.ingested ∧
    (processChunk engineRejects (processChunk engineRejects st c1 f1) c2
      f2).ingested = st.ingested ++ [(c2, f2)] := by
  simp [processChunk, hatt, hrej, hacc]

/-- Witness for C7 with an engine rejecting exactly `['x']`. -/
theorem C7_rejection_local_witness :
    (processChunk (fun c => decide (c = ['x'])) ⟨true, [], 0, 0⟩ ['x']
      true).onErrorCalls = 0 ∧
    (processChunk (fun c => decide (c = ['x'])) ⟨true, [], 0, 0⟩ ['x']
      true).warns = 0 + 1 ∧
    (processChunk (fun c => decide (c = ['x'])) ⟨true, [], 0, 0⟩ ['x']
      true).ingested = [] ∧
    (processChunk (fun c => decide (c = ['x']))
      (processChunk (fun c => decide (c = ['x'])) ⟨true, [], 0, 0⟩ ['x'] true)
      ['y'] false).ingested = [] ++ [(['y'], false)] :=
  C7_rejection_local (fun c => decide (c = ['x'])) ⟨true, [], 0, 0⟩ ['x']
    ['y'] true false rfl (by decide) (by decide)

/-- Timeout of the dual-path loader (`TIMEOUT_MS` in `loadFromUrl`,
src/index.js line 1516), with `startTime` taken as 0. -/
def TIMEOUT_MS : Nat := 30000

/-- Observable state of one `loadFromUrl` operation (src/index.js lines
1502-1605): the process-wide handoff cell `window.rustyleafGeoJSONData`, the
single-assignment `state.done` flag, whether another `checkForData` poll is
scheduled, the payloads applied via `loadData`, and the counts of
`completeCallback`, `resolve`, `reject` and `errorCallback` firings. -/
structure DualState where
  slot : Option (List Char)
  done : Bool
  pollActive : Bool
  completes : Nat
  resolves : Nat
  rejects : Nat
  errCalls : Nat
  loads : List (List Char)
  deriving DecidableEq

/-- State right after `loadFromUrl` starts: slot empty, `state.done` false,
first `checkForData` scheduled, nothing settled. -/
def initDual : DualState :=
  { slot := none, done := false, pollActive := true, completes := 0,
    resolves := 0, rejects := 0, errCalls := 0, loads := [] }

/-- One run of `checkForData` at wall-clock time `now` (ms since the
operation started). Past the deadline it deletes the handoff cell, rejects if
`state.done` is still false, and returns without rescheduling — without
setting `state.done`. Otherwise a populated cell is consumed inside the
`try/catch`, guarded by `state.done`: `state.done` is set, then
`this.loadData(payload)` runs — `loadThrows` abstracts whether it raises
(e.g. the engine rejecting a malformed cell payload); on a throw the `catch`
fires `errorCallback` and `reject`, skipping the `delete` (cell retained) and
the completion; otherwise the cell is cleared and completion fired. An empty
cell just reschedules the poll. -/
def checkForData (loadThrows : List Char → Bool) (st : DualState)
    (now : Nat) : DualState :=
  if TIMEOUT_MS < now then
    { st with
        slot := none, pollActive := false,
        rejects := if st.done then st.rejects else st.rejects + 1 }
  else
    match st.slot with
    | some d =>
      if st.done then { st with pollActive := false }
      else if loadThrows d then
        { st with
            done := true, pollActive := false,
            errCalls := st.errCalls + 1, rejects := st.rejects + 1 }
      else
        { st with
            done := true, loads := st.loads ++ [d], slot := none,
            completes := st.completes + 1, resolves := st.resolves + 1,
            pollActive := false }
    | none => { st with pollActive := true }

/-- Resolution of the parallel JS fetch fallback with body text `t`: a no-op
if the other path already settled; otherwise it sets `state.done` and runs
`this.loadData(t)` — if that throws, the promise chain's `.catch` fires only
the diagnostic `errorCallback` (no completion, no reject); otherwise the text
is loaded and completion fired. -/
def fetchResolved (loadThrows : List Char → Bool) (st : DualState)
    (t : List Char) : DualState :=
  if st.done then st
  else if loadThrows t then
    { st with done := true, errCalls := st.errCalls + 1 }
  else
    { st with
        done := true, loads := st.loads ++ [t],
        completes := st.completes + 1, resolves := st.resolves + 1 }

/-- Failure of the parallel fetch itself (network error or non-ok status):
reported through the same `.catch` as a diagnostic only, never rejects. -/
def fetchRejected (st : DualState) : DualState :=
  { st with errCalls := st.errCalls + 1 }

/-- The external retrieval engine writing its payload into the handoff
cell. -/
def slotWrite (st : DualState) (d : List Char) : DualState :=
  { st with slot := some d }

/-- Scheduler turns that can touch one `loadFromUrl` operation. -/
inductive DualEvent where
  | poll (now : Nat)
  | handoff (d : List Char)
  | fetchOk (t : List Char)
  | fetchErr
  deriving DecidableEq

/-- Interpretation of one scheduler turn, given the engine's verdict
`loadThrows` on applying a payload via `this.loadData`. -/
def dualStep (loadThrows : List Char → Bool) (st : DualState) :
    DualEvent → DualState
  | .poll now => checkForData loadThrows st now
  | .handoff d => slotWrite st d
  | .fetchOk t => fetchResolved loadThrows st t
  | .fetchErr => fetchRejected st

/-- One `loadFromUrl` operation as a fold over its scheduler turns. -/
def dualRun (loadThrows : List Char → Bool) (evs : List DualEvent) :
    DualState :=
  evs.foldl (dualStep loadThrows) initDual

/-- C3 fails on the code: on the schedule where neither path settles before
the deadline (the poll at 30100 ms rejects with the timeout error) and the
fetch fallback then resolves, the operation both rejects and afterwards fires
`completeCallback`/`resolve` — the timeout branch never sets `state.done`,
so the loser's late arrival produces a second settlement after the
failure. -/
theorem C3_double_settlement :
    (dualRun (fun _ => false)
      [.poll 100, .poll 30100, .fetchOk ['d']]).rejects = 1 ∧
    (dualRun (fun _ => false)
      [.poll 100, .poll 30100, .fetchOk ['d']]).completes = 1 ∧
    (dualRun (fun _ => false)
      [.poll 100, .poll 30100, .fetchOk ['d']]).resolves = 1 := by
  decide

/-- C4 fails on the code: if the fetch path settles first (`resolve` fired at
the first event) and the engine's payload lands in the handoff cell
afterwards, the next poll sees `state.done`, returns without clearing, and
stops polling — the stale payload stays in
`window.rustyleafGeoJSONData` forever. -/
theorem C4_slot_retained_counterexample :
    (dualRun (fun _ => false)
      [.fetchOk ['t'], .handoff ['p'], .poll 200]).slot = some ['p'] ∧
    (dualRun (fun _ => false)
      [.fetchOk ['t'], .handoff ['p'], .poll 200]).resolves = 1 ∧
    (dualRun (fun _ => false)
      [.fetchOk ['t'], .handoff ['p'], .poll 200]).pollActive = false := by
  decide

/-- C4 amended: a poll that finds the handoff cell populated clears it
exactly when it reaches the `delete` — that is, exactly when the deadline
has expired, or the operation is still unsettled and applying the payload
via `this.loadData` does not throw. In every other case — the polling path
lost the race (`state.done` already set), or the consume's `loadData` threw
before the `delete` — the payload is retained. -/
theorem C4_slot_cleared_iff (loadThrows : List Char → Bool) (st : DualState)
    (now : Nat) (d : List Char) (hslot : st.slot = some d) :
    (checkForData loadThrows st now).slot = none ↔
      (TIMEOUT_MS < now ∨ (st.done = false ∧ loadThrows d = false)) := by
  unfold checkForData
  by_cases ht : TIMEOUT_MS < now
  · simp [ht]
  · rw [if_neg ht, hslot]
    by_cases hd : st.done
    · simp [hd, hslot, ht]
    · by_cases hl : loadThrows d
      · simp [hd, hl, hslot, ht]
      · simp [hd, hl, ht]

/-- Witness for C4 amended: a populated cell consumed by an in-deadline poll
of an unsettled operation whose payload the engine accepts. -/
theorem C4_slot_cleared_iff_witness :
    (checkForData (fun _ => false) { initDual with slot := some ['p'] }
      100).slot = none ↔
      (TIMEOUT_MS < 100 ∨
        (({ initDual with slot := some ['p'] } : DualState).done = false ∧
          (fun _ : List Char => false) ['p'] = false)) :=
  C4_slot_cleared_iff (fun _ => false) { initDual with slot := some ['p'] }
    100 ['p'] rfl

/-- C8: at any poll past the 30-second deadline the handoff cell is deleted
unconditionally — whatever the cell and the `state.done` flag held — polling
stops, and the operation is rejected with the timeout error exactly when no
path had settled. -/
theorem C8_timeout_clears_slot (loadThrows : List Char → Bool)
    (st : DualState) (now : Nat) (h : TIMEOUT_MS < now) :
    (checkForData loadThrows st now).slot = none ∧
    (checkForData loadThrows st now).pollActive = false ∧
    (checkForData loadThrows st now).rejects =
      (if st.done then st.rejects else st.rejects + 1) := by
  unfold checkForData
  rw [if_pos h]
  exact ⟨rfl, rfl, rfl⟩

/-- Witness for C8 at expiry time 30001 ms with a populated cell and the
settled flag raised: the cell is still cleared and no reject fires. -/
theorem C8_timeout_clears_slot_witness :
    (checkForData (fun _ => false)
      { initDual with slot := some ['q'], done := true } 30001).slot =
      none ∧
    (checkForData (fun _ => false)
      { initDual with slot := some ['q'], done := true }
      30001).pollActive = false ∧
    (checkForData (fun _ => false)
      { initDual with slot := some ['q'], done := true } 30001).rejects =
      0 :=
  C8_timeout_clears_slot (fun _ => false)
    { initDual with slot := some ['q'], done := true } 30001 (by decide)

end Rustyleaf
